import Mathlib

/-!
Shallow embedding of the Google Calendar multi-sync script (`main.js`).

The script performs a one-way synchronization from several source calendars
into one target calendar.  We model:

* the JavaScript truthiness conventions used by the script (`x || d`,
  `if (x)`) for optional strings,
* source events as delivered by the Calendar API (`SourceEvent`),
* the target calendar as a store of records with unique store-assigned ids
  (`TargetStore`), where the correlation tag
  (`extendedProperties.private[SYNC_TAG_KEY]`) is a field of the payload,
* the script's helper functions `createOrUpdateEvent`, `deleteTargetEvent`,
  `resetAllSyncTokens`, and the orchestrator `mainSyncFunction` with its
  pagination loop, cursor (sync-token) persistence and catch-clause.

Effects of the outside world (the Calendar API, `PropertiesService`, `CalendarApp`) are
modelled by an explicit environment: `CalendarApp.getCalendarById(id).getName()`
becomes a name resolver that can fail (absence models the thrown TypeError on a
null calendar), and `Calendar.Events.list` on a source calendar becomes the
sequence of responses the API gives to the successive `list` calls of one
pass — each response either a page or a thrown exception message.
-/

namespace CalendarSync

/-- JavaScript truthiness of an optional string value: `null`/`undefined`
and the empty string are falsy. -/
def jsTruthyStr : Option String → Bool
  | none => false
  | some s => s != ""

/-- The JavaScript idiom `x || d` for an optional string `x`:
absent or empty strings fall back to the default. -/
def jsOr (x : Option String) (d : String) : String :=
  match x with
  | none => d
  | some s => if s = "" then d else s

/-- Embeds `s.includes(pat)`: substring containment on strings. -/
def strIncludes (s pat : String) : Bool :=
  decide (List.IsInfix pat.data s.data)

/-- Whitespace as stripped by `String.prototype.trim` (modelled for the
ASCII whitespace characters that can occur in event titles). -/
def jsIsSpace (c : Char) : Bool :=
  c.isWhitespace

/-- Embeds `s.trim()`: strip leading and trailing whitespace. -/
def jsTrim (s : String) : String :=
  String.mk (((s.data.dropWhile jsIsSpace).reverse.dropWhile jsIsSpace).reverse)

/-- A Calendar API date container: exactly one of `date` (all-day) or
`dateTime` (timed) is populated in real data; we keep both optional exactly
as the script reads them. -/
structure EventDateTime where
  date : Option String
  dateTime : Option String
deriving DecidableEq

/-- A change record coming from a source calendar
(`sourceEvent` in the script).  `startTime`/`endTime` model the source
fields `start`/`end`. -/
structure SourceEvent where
  id : String
  status : String
  summary : Option String
  description : Option String
  location : Option String
  startTime : EventDateTime
  endTime : EventDateTime
  recurrence : Option (List String)
deriving DecidableEq

/-- The payload the script writes to the target calendar
(`targetEventPayload`).  `sourceEventId` models
`extendedProperties.private[GLOBAL_CONFIG.SYNC_TAG_KEY]`; target records not
created by the script carry `none` there. -/
structure TargetEventPayload where
  summary : String
  description : String
  location : String
  startTime : EventDateTime
  endTime : EventDateTime
  recurrence : Option (List String)
  colorId : String
  sourceEventId : Option String
deriving DecidableEq

/-- A record stored in the target calendar: a store-assigned id plus the
payload fields. -/
structure TargetEvent where
  id : Nat
  payload : TargetEventPayload
deriving DecidableEq

/-- The target calendar as a store.  `nextId` is the next fresh id the
store assigns on insert. -/
structure TargetStore where
  events : List TargetEvent
  nextId : Nat
deriving DecidableEq

/-- Embeds `Calendar.Events.list(targetId, searchParameters)` with the tag filter:
all target records whose correlation tag equals `tag`, in store order. -/
def listByTag (st : TargetStore) (tag : String) : List TargetEvent :=
  st.events.filter (fun e => e.payload.sourceEventId == some tag)

/-- Embeds `Calendar.Events.update(payload, targetId, eventId)`: full replacement
of the payload of the record with the given id. -/
def updateEvent (st : TargetStore) (eventId : Nat) (p : TargetEventPayload) : TargetStore :=
  { st with events := st.events.map (fun e => if e.id == eventId then { e with payload := p } else e) }

/-- Embeds `Calendar.Events.insert(payload, targetId)`: append a record under a
fresh store-assigned id. -/
def insertEvent (st : TargetStore) (p : TargetEventPayload) : TargetStore :=
  { st with
    events := st.events ++ [{ id := st.nextId, payload := p }]
    nextId := st.nextId + 1 }

/-- Embeds `Calendar.Events.remove(targetId, eventId)`: delete the record with the
given id. -/
def removeEvent (st : TargetStore) (eventId : Nat) : TargetStore :=
  { st with events := st.events.filter (fun e => e.id != eventId) }

/-- Global configuration (`GLOBAL_CONFIG`), with `tokenPropertyHead`
embedding the source's sync-token key-stem constant. -/
structure GlobalConfig where
  targetCalendarId : String
  syncTagKey : String
  tokenPropertyHead : String
  initialSyncThrottle : Nat
  initialSyncPastDays : Nat
  initialSyncFutureDays : Nat

def GLOBAL_CONFIG : GlobalConfig :=
  { targetCalendarId := "primary"
    syncTagKey := "sourceEventId"
    tokenPropertyHead := "syncToken_"
    initialSyncThrottle := 500
    initialSyncPastDays := 7
    initialSyncFutureDays := 365 }

/-- One entry of `SOURCE_CALENDARS`; `pfx` embeds the source field named
after the visual marker text (e.g. `"[Work]"`). -/
structure SourceConfig where
  id : String
  pfx : String
  colorId : String
deriving DecidableEq

/-- The configured source calendars (`SOURCE_CALENDARS`, the placeholder
values shipped in the script). -/
def SOURCE_CALENDARS : List SourceConfig :=
  [ { id := "your_university_calendar_id@group.calendar.google.com", pfx := "[Univ]", colorId := "9" }
  , { id := "your_work_calendar_id@group.calendar.google.com", pfx := "[Work]", colorId := "5" }
  , { id := "another_calendar_id@gmail.com", pfx := "[Personal]", colorId := "4" } ]

/-- The regular expression match `title.match(/^\[(.*?)\]/)`:
a leading `[`, then a lazy run of characters (excluding line terminators,
which `.` does not match) up to the first `]`.  Returns the capture group
(the text between the brackets) when the pattern matches. -/
def bracketMatch (title : String) : Option String :=
  match title.data with
  | [] => none
  | c :: rest =>
      if c = '[' then
        let content := rest.takeWhile (fun ch => ch != ']')
        if content.length < rest.length && !(content.contains '\n') && !(content.contains '\r') then
          some (String.mk content)
        else none
      else none

/-- The title rewriting of `createOrUpdateEvent` (`main.js` lines 223-234):
if the title carries no bracketed marker, or its bracketed text differs from
the source calendar's display name, strip any bracketed marker (plus
surrounding whitespace) and prepend this source's marker; otherwise leave
the title unmodified. -/
def transformTitle (rawTitle pfx sourceCalendarName : String) : String :=
  match bracketMatch rawTitle with
  | some content =>
      if content = sourceCalendarName then rawTitle
      else pfx ++ " " ++ jsTrim (String.mk (rawTitle.data.drop (content.length + 2)))
  | none => pfx ++ " " ++ rawTitle

/-- The `targetEventPayload` object the script builds (`main.js`
lines 223-252): defaulted title/description/location, start and end kept in
whichever representation the source used, recurrence passed through, the
source's color, and the correlation tag set to the source event id. -/
def buildTargetPayload (sourceEvent : SourceEvent) (pfx sourceColorId sourceCalendarName : String) :
    TargetEventPayload :=
  let title := transformTitle (jsOr sourceEvent.summary "(No Title)") pfx sourceCalendarName
  { summary := title
    description := jsOr sourceEvent.description ""
    location := jsOr sourceEvent.location ""
    startTime :=
      if jsTruthyStr sourceEvent.startTime.date then
        { date := sourceEvent.startTime.date, dateTime := none }
      else
        { date := none, dateTime := sourceEvent.startTime.dateTime }
    endTime :=
      if jsTruthyStr sourceEvent.endTime.date then
        { date := sourceEvent.endTime.date, dateTime := none }
      else
        { date := none, dateTime := sourceEvent.endTime.dateTime }
    recurrence := sourceEvent.recurrence
    colorId := sourceColorId
    sourceEventId := some sourceEvent.id }

/-- Embeds `createOrUpdateEvent` (`main.js` lines 204-265): search the target by
the correlation tag; update the first match in place, or insert a fresh
record when no match exists. -/
def createOrUpdateEvent (sourceEvent : SourceEvent) (pfx sourceColorId sourceCalendarName : String)
    (st : TargetStore) : TargetStore :=
  let existingTargetEvent := (listByTag st sourceEvent.id).head?
  let targetEventPayload := buildTargetPayload sourceEvent pfx sourceColorId sourceCalendarName
  match existingTargetEvent with
  | some t => updateEvent st t.id targetEventPayload
  | none => insertEvent st targetEventPayload

/-- Embeds `deleteTargetEvent` (`main.js` lines 273-295): search the target by the
correlation tag; remove the first match, or do nothing when no match exists
(not an error). -/
def deleteTargetEvent (sourceEvent : SourceEvent) (st : TargetStore) : TargetStore :=
  match (listByTag st sourceEvent.id).head? with
  | some t => removeEvent st t.id
  | none => st

/-- Embeds `PropertiesService.getUserProperties()`: a key-value store of string
properties, as an association list (later entries shadowed by earlier
ones). -/
structure Props where
  entries : List (String × String)
deriving DecidableEq

/-- Embeds `userProperties.getProperty(k)` (null becomes `none`). -/
def Props.getProperty (p : Props) (k : String) : Option String :=
  (p.entries.find? (fun e => e.1 == k)).map (fun e => e.2)

/-- Embeds `userProperties.setProperty(k, v)`: overwrite any existing value. -/
def Props.setProperty (p : Props) (k v : String) : Props :=
  { entries := (k, v) :: p.entries.filter (fun e => e.1 != k) }

/-- Embeds `userProperties.deleteProperty(k)`. -/
def Props.deleteProperty (p : Props) (k : String) : Props :=
  { entries := p.entries.filter (fun e => e.1 != k) }

/-- The `requestParameters` object built by `mainSyncFunction`
(`main.js` lines 117-136).  Times are modelled as milliseconds since epoch
(the argument of `new Date(...)` whose ISO rendering is sent). -/
structure RequestParams where
  showDeleted : Bool
  singleEvents : Bool
  maxResults : Nat
  syncToken : Option String
  timeMin : Option Int
  timeMax : Option Int
deriving DecidableEq

/-- The construction of `requestParameters`: base flags always set, then
either the stored sync token (delta mode, no time window) or the bootstrap
time window (no token), exactly as in `main.js` lines 117-136. -/
def buildRequestParams (syncToken : Option String) (now : Int) : RequestParams :=
  let base : RequestParams :=
    { showDeleted := true, singleEvents := true, maxResults := 250
      syncToken := none, timeMin := none, timeMax := none }
  if jsTruthyStr syncToken then
    { base with syncToken := syncToken }
  else
    { base with
      timeMin := some (now - (GLOBAL_CONFIG.initialSyncPastDays : Int) * 24 * 60 * 60 * 1000)
      timeMax := some (now + (GLOBAL_CONFIG.initialSyncFutureDays : Int) * 24 * 60 * 60 * 1000) }

/-- One response page of `Calendar.Events.list` on a source calendar. -/
structure FetchResult where
  items : List SourceEvent
  nextPageToken : Option String
  nextSyncToken : Option String
deriving DecidableEq

/-- One `Calendar.Events.list` call on a source calendar either returns a
page or throws an exception carrying a message. -/
inductive FetchOutcome where
  | ok (page : FetchResult)
  | error (msg : String)
deriving DecidableEq

/-- How the pagination loop of one source's pass ends: normally (with the
last fetched page in hand, `eventPages` after the loop), by a thrown
exception, or with the environment's response sequence exhausted while the
loop still wants another page (standing in for an execution that never
reaches the code after the loop). -/
inductive PassExit where
  | finished (page : FetchResult)
  | errored (msg : String)
  | starved
deriving DecidableEq

/-- Log events we track (the `Logger.log` call announcing that a source's
sync is starting, `main.js` lines 126/135). -/
inductive TraceEntry where
  | sourceStarted (id : String)
deriving DecidableEq

/-- The state threaded through `mainSyncFunction`: the user-properties
store (cursors), the target calendar and the log trace. -/
structure SyncState where
  props : Props
  target : TargetStore
  trace : List TraceEntry
deriving DecidableEq

/-- The outside world: `CalendarApp.getCalendarById(id).getName()`
(`none` = calendar not found, on which the script would throw), and the
sequence of responses `Calendar.Events.list(id, params)` produces over the
successive calls of one pass. -/
structure Env where
  calendarName : String → Option String
  fetch : String → RequestParams → List FetchOutcome

/-- Processing of one item of a page (`main.js` lines 151-157): cancelled
records are deletions, all others are upserts. -/
def stepRecord (pfx colorId sourceCalendarName : String) (tgt : TargetStore)
    (sourceEvent : SourceEvent) : TargetStore :=
  if sourceEvent.status == "cancelled" then
    deleteTargetEvent sourceEvent tgt
  else
    createOrUpdateEvent sourceEvent pfx colorId sourceCalendarName tgt

/-- The `for (const sourceEvent of eventPages.items)` loop over one page. -/
def processItems (pfx colorId sourceCalendarName : String) (tgt : TargetStore)
    (items : List SourceEvent) : TargetStore :=
  items.foldl (stepRecord pfx colorId sourceCalendarName) tgt

/-- The `do { ... } while (pageToken)` pagination loop (`main.js` lines
142-171), consuming the environment's response sequence: an exception exits
the loop abnormally; an empty page breaks out; otherwise the page's items
are processed and the loop continues exactly when `nextPageToken` is truthy
(in delta mode via the explicit `break`, in bootstrap mode via the loop
condition — observably the same). -/
def runPages (pfx colorId sourceCalendarName : String) :
    List FetchOutcome → TargetStore → TargetStore × PassExit
  | [], tgt => (tgt, PassExit.starved)
  | FetchOutcome.error msg :: _, tgt => (tgt, PassExit.errored msg)
  | FetchOutcome.ok page :: rest, tgt =>
      if page.items.isEmpty then
        (tgt, PassExit.finished page)
      else
        let tgt' := processItems pfx colorId sourceCalendarName tgt page.items
        if jsTruthyStr page.nextPageToken then
          runPages pfx colorId sourceCalendarName rest tgt'
        else
          (tgt', PassExit.finished page)

/-- The property key under which a source's sync token is persisted
(`tokenPropertyKey`). -/
def tokenKeyFor (source : SourceConfig) : String :=
  GLOBAL_CONFIG.tokenPropertyHead ++ source.id

/-- The catch-clause test on the exception message (`main.js` line 179). -/
def msgIsInvalidCursor (msg : String) : Bool :=
  strIncludes msg "Sync token is no longer valid" || strIncludes msg "410"

/-- The outcome of one source's pagination loop from a given state: the
target store after the processed pages, and how the loop exited. -/
def passResult (env : Env) (now : Int) (st : SyncState) (source : SourceConfig)
    (sourceCalendarName : String) : TargetStore × PassExit :=
  runPages source.pfx source.colorId sourceCalendarName
    (env.fetch source.id
      (buildRequestParams (st.props.getProperty (tokenKeyFor source)) now))
    st.target

/-- One iteration of the main source loop for one source (`main.js` lines
111-185 inside the `for`): build the request, run the pagination loop,
then either persist the new sync token (only after a normal loop exit, and
only when the last page carries a truthy `nextSyncToken`), or run the
catch-clause: delete the token on the invalid-cursor condition, otherwise
only log. -/
def runSourcePass (env : Env) (now : Int) (st : SyncState) (source : SourceConfig)
    (sourceCalendarName : String) : SyncState :=
  let tokenPropertyKey := tokenKeyFor source
  let st1 : SyncState := { st with trace := st.trace ++ [TraceEntry.sourceStarted source.id] }
  let result := passResult env now st source sourceCalendarName
  let st2 : SyncState := { st1 with target := result.1 }
  match result.2 with
  | PassExit.finished page =>
      match page.nextSyncToken with
      | some tok =>
          if tok ≠ "" then { st2 with props := st2.props.setProperty tokenPropertyKey tok }
          else st2
      | none => st2
  | PassExit.errored msg =>
      if msgIsInvalidCursor msg then
        { st2 with props := st2.props.deleteProperty tokenPropertyKey }
      else st2
  | PassExit.starved => st2

/-- The `for (const source of SOURCE_CALENDARS)` loop.  Resolving the
source calendar's display name (`main.js` line 113) happens before the
`try` block: a source calendar that resolves to null makes `.getName()`
throw an uncaught exception, aborting the remaining sources. -/
def syncSources (env : Env) (now : Int) : List SourceConfig → SyncState → SyncState
  | [], st => st
  | source :: rest, st =>
      match env.calendarName source.id with
      | none => st
      | some sourceCalendarName =>
          syncSources env now rest (runSourcePass env now st source sourceCalendarName)

/-- Embeds `mainSyncFunction` (`main.js` lines 101-187): abort with no writes when
the target calendar does not resolve, otherwise run each configured source
in order. -/
def mainSyncFunction (env : Env) (now : Int) (sources : List SourceConfig)
    (st : SyncState) : SyncState :=
  if (env.calendarName GLOBAL_CONFIG.targetCalendarId).isSome then
    syncSources env now sources st
  else st

/-- A sequence of orchestrator invocations ("passes" over time), each with
its own environment and clock. -/
def runInvocations (sources : List SourceConfig) (invs : List (Env × Int))
    (st : SyncState) : SyncState :=
  invs.foldl (fun s inv => mainSyncFunction inv.1 inv.2 sources s) st

/-- Embeds `resetAllSyncTokens` (`main.js` lines 307-318): delete the persisted
sync token of every configured source calendar. -/
def resetAllSyncTokens (sources : List SourceConfig) (props : Props) : Props :=
  sources.foldl (fun p source => p.deleteProperty (GLOBAL_CONFIG.tokenPropertyHead ++ source.id)) props

/-! Section: Store invariants -/

/-- The ids of the records in the target store, in store order. -/
def idsOf (st : TargetStore) : List Nat :=
  st.events.map (fun e => e.id)

/-- The correlation tags present in the target store, in store order. -/
def tagsOf (st : TargetStore) : List String :=
  st.events.filterMap (fun e => e.payload.sourceEventId)

/-- Intrinsic well-formedness of the target store: record ids are distinct
and below the next fresh id (the real calendar assigns unique ids). -/
def WellFormed (st : TargetStore) : Prop :=
  (idsOf st).Nodup ∧ ∀ e ∈ st.events, e.id < st.nextId

/-- The central uniqueness invariant: no two target records carry the same
correlation tag. -/
def TagsNodup (st : TargetStore) : Prop :=
  (tagsOf st).Nodup

/-- How many target records carry the given correlation tag. -/
def countTag (st : TargetStore) (tag : String) : Nat :=
  (listByTag st tag).length

/-- The record `createOrUpdateEvent`/`deleteTargetEvent` would act on:
the first target record carrying the tag. -/
def findByTag (st : TargetStore) (tag : String) : Option TargetEvent :=
  (listByTag st tag).head?

instance (st : TargetStore) : Decidable (WellFormed st) :=
  decidable_of_iff ((idsOf st).Nodup ∧ ∀ e ∈ st.events, e.id < st.nextId) Iff.rfl

instance (st : TargetStore) : Decidable (TagsNodup st) :=
  decidable_of_iff (tagsOf st).Nodup Iff.rfl

/-! Section: Search predicate and in-place update -/

/-- The correlation-tag search predicate. -/
def tagPred (tag : String) : TargetEvent → Bool :=
  fun e => e.payload.sourceEventId == some tag

/-- The in-place update applied by `updateEvent`. -/
def updFn (i : Nat) (p : TargetEventPayload) : TargetEvent → TargetEvent :=
  fun e => if e.id == i then { e with payload := p } else e

/-! Section: Concrete fixtures for witnesses and counterexamples -/

/-- An active source change record used in concrete runs. -/
def evW : SourceEvent :=
  { id := "e1", status := "confirmed", summary := some "Lunch"
    description := some "desc", location := some "loc"
    startTime := { date := none, dateTime := some "2026-01-01T10:00:00Z" }
    endTime := { date := none, dateTime := some "2026-01-01T11:00:00Z" }
    recurrence := none }

/-- A source change record with all optional fields absent. -/
def evBare : SourceEvent :=
  { id := "e2", status := "confirmed", summary := none, description := none
    location := none
    startTime := { date := some "2026-01-01", dateTime := none }
    endTime := { date := some "2026-01-02", dateTime := none }
    recurrence := none }

/-- A cancelled change record for the source record `e1`. -/
def evCancel : SourceEvent :=
  { id := "e1", status := "cancelled", summary := none, description := none
    location := none
    startTime := { date := none, dateTime := none }
    endTime := { date := none, dateTime := none }
    recurrence := none }

def srcA2 : SourceConfig := { id := "a@x", pfx := "[A]", colorId := "1" }

def srcB2 : SourceConfig := { id := "b@x", pfx := "[B]", colorId := "2" }

/-- A single final page carrying one record and a fresh sync token. -/
def pageB : FetchResult :=
  { items := [evW], nextPageToken := none, nextSyncToken := some "tokB" }

/-- Target and both source calendars resolve; a@x's fetch throws a
non-cursor error, b@x's fetch returns one final page. -/
def envIsolW : Env :=
  { calendarName := fun id =>
      if id = "primary" then some "Me"
      else if id = "a@x" then some "A"
      else if id = "b@x" then some "B"
      else none
    fetch := fun id _ =>
      if id = "a@x" then [FetchOutcome.error "transient failure"]
      else [FetchOutcome.ok pageB] }

/-- a@x's calendar does not resolve: `getName()` on it throws. -/
def envAbortW : Env :=
  { calendarName := fun id =>
      if id = "primary" then some "Me"
      else if id = "b@x" then some "B"
      else none
    fetch := fun _ _ => [FetchOutcome.ok pageB] }

/-- Every fetch throws the invalid-cursor exception. -/
def env410W : Env :=
  { calendarName := fun id => if id = "primary" then some "Me" else some "A"
    fetch := fun _ _ => [FetchOutcome.error "API call failed: 410 Gone"] }

/-- Every fetch returns one final page with a new token. -/
def envOkW : Env :=
  { calendarName := fun id => if id = "primary" then some "Me" else some "B"
    fetch := fun _ _ => [FetchOutcome.ok pageB] }

/-- Empty starting state. -/
def sst0W : SyncState :=
  { props := { entries := [] }, target := { events := [], nextId := 0 }, trace := [] }

/-- State with a previously persisted cursor for a@x. -/
def sstTokW : SyncState :=
  { props := { entries := [("syncToken_a@x", "tok0")] }
    target := { events := [], nextId := 0 }, trace := [] }

/-- The payload and record created by upserting `evW` from the Work source. -/
def pW : TargetEventPayload := buildTargetPayload evW "[Work]" "5" "Work"

def tgtW : TargetEvent := { id := 0, payload := pW }

/-- A well-formed one-record target store whose record carries tag e1. -/
def stW : TargetStore := { events := [tgtW], nextId := 1 }

/-! Section: Helper lemmas: properties store -/

lemma getProperty_deleteProperty_self (p : Props) (k : String) :
    (p.deleteProperty k).getProperty k = none := by
  simp only [Props.deleteProperty, Props.getProperty, Option.map_eq_none']
  rw [List.find?_eq_none]
  intro x hx
  have := (List.mem_filter.mp hx).2
  simpa using this

/-- Lemma: `find?` ignores a `filter` that only removes elements the search
predicate rejects. -/
lemma find?_filter_of_imp {α : Type} (l : List α) (p q : α → Bool)
    (h : ∀ x, q x = true → p x = true) :
    (l.filter p).find? q = l.find? q := by
  induction l with
  | nil => rfl
  | cons x xs ih =>
      by_cases hq : q x = true
      · have hp := h x hq
        simp [List.filter_cons, hp, List.find?_cons, hq]
      · have hq' : q x = false := by simpa using hq
        by_cases hp : p x = true
        · simp [List.filter_cons, hp, List.find?_cons, hq', ih]
        · have hp' : p x = false := by simpa using hp
          simp [List.filter_cons, hp', List.find?_cons, hq', ih]

lemma getProperty_deleteProperty_ne (p : Props) (k k' : String) (h : k' ≠ k) :
    (p.deleteProperty k).getProperty k' = p.getProperty k' := by
  simp only [Props.deleteProperty, Props.getProperty]
  congr 1
  apply find?_filter_of_imp
  intro x hx
  have hx' : x.1 = k' := by simpa using hx
  simp [hx', h]

lemma getProperty_setProperty_self (p : Props) (k v : String) :
    (p.setProperty k v).getProperty k = some v := by
  simp [Props.setProperty, Props.getProperty, List.find?_cons]

lemma getProperty_setProperty_ne (p : Props) (k k' v : String) (h : k' ≠ k) :
    (p.setProperty k v).getProperty k' = p.getProperty k' := by
  simp only [Props.setProperty, Props.getProperty]
  have hk : (k == k') = false := by
    simp [Ne.symm h]
  rw [List.find?_cons]
  simp only [hk]
  congr 1
  apply find?_filter_of_imp
  intro x hx
  have hx' : x.1 = k' := by simpa using hx
  simp [hx', h]

/-! Section: Helper lemmas: target store search and update -/

/-- The head of a filtered list is the first element satisfying the
predicate. -/
lemma head?_filter {α : Type} (p : α → Bool) (l : List α) :
    (l.filter p).head? = l.find? p := by
  induction l with
  | nil => rfl
  | cons x xs ih =>
      by_cases hp : p x = true
      · simp [List.filter_cons, hp, List.find?_cons]
      · have hp' : p x = false := by simpa using hp
        simp [List.filter_cons, hp', List.find?_cons, ih]

lemma listByTag_head? (st : TargetStore) (tag : String) :
    (listByTag st tag).head? = st.events.find? (tagPred tag) :=
  head?_filter _ _

lemma updFn_id (i : Nat) (p : TargetEventPayload) (e : TargetEvent) :
    (updFn i p e).id = e.id := by
  unfold updFn
  split <;> rfl

lemma updFn_updFn (i : Nat) (p : TargetEventPayload) (e : TargetEvent) :
    updFn i p (updFn i p e) = updFn i p e := by
  unfold updFn
  by_cases h : (e.id == i) = true
  · simp [h]
  · have h' : (e.id == i) = false := by simpa using h
    simp [h']

lemma updateEvent_events (st : TargetStore) (i : Nat) (p : TargetEventPayload) :
    (updateEvent st i p).events = st.events.map (updFn i p) :=
  rfl

lemma ids_map_updFn (l : List TargetEvent) (i : Nat) (p : TargetEventPayload) :
    (l.map (updFn i p)).map (fun e => e.id) = l.map (fun e => e.id) := by
  rw [List.map_map]
  apply List.map_congr_left
  intro a _
  simp [Function.comp, updFn_id]

lemma map_updFn_of_ne (l : List TargetEvent) (i : Nat) (p : TargetEventPayload)
    (h : ∀ e ∈ l, e.id ≠ i) :
    l.map (updFn i p) = l := by
  have : l.map (updFn i p) = l.map (fun e => e) := by
    apply List.map_congr_left
    intro e he
    have : (e.id == i) = false := by simp [h e he]
    simp [updFn, this]
  rw [this, List.map_id']

/-- After updating the record the search found, the search finds the
updated record (ids are distinct, so nothing earlier starts matching). -/
lemma find?_map_updFn (l : List TargetEvent) (q : TargetEvent → Bool)
    (t : TargetEvent) (p : TargetEventPayload)
    (hnd : (l.map (fun e => e.id)).Nodup)
    (hfind : l.find? q = some t)
    (hq : q { t with payload := p } = true) :
    (l.map (updFn t.id p)).find? q = some { t with payload := p } := by
  induction l with
  | nil => simp at hfind
  | cons x xs ih =>
      rw [List.map_cons]
      rw [List.map_cons, List.nodup_cons] at hnd
      by_cases hx : q x = true
      · rw [List.find?_cons_of_pos _ hx] at hfind
        have hxt : x = t := by simpa using hfind
        subst hxt
        have hupd : updFn x.id p x = { x with payload := p } := by
          simp [updFn]
        rw [hupd, List.find?_cons_of_pos _ hq]
      · have hx' : q x = false := by simpa using hx
        rw [List.find?_cons_of_neg _ hx] at hfind
        have ht : t ∈ xs := List.mem_of_find?_eq_some hfind
        have hne : x.id ≠ t.id := by
          intro hcontra
          exact hnd.1 (hcontra ▸ List.mem_map_of_mem (fun e => e.id) ht)
        have hupd : updFn t.id p x = x := by
          simp [updFn, hne]
        have hqupd : ¬ q x = true := hx
        rw [hupd, List.find?_cons_of_neg _ hqupd]
        exact ih hnd.2 hfind

/-- Updating the found record with a payload carrying its own tag leaves
the store's tag list unchanged. -/
lemma tags_map_updFn (l : List TargetEvent) (t : TargetEvent) (p : TargetEventPayload)
    (hnd : (l.map (fun e => e.id)).Nodup)
    (ht : t ∈ l)
    (htag : p.sourceEventId = t.payload.sourceEventId) :
    (l.map (updFn t.id p)).filterMap (fun e => e.payload.sourceEventId)
      = l.filterMap (fun e => e.payload.sourceEventId) := by
  rw [List.filterMap_map]
  apply List.filterMap_congr
  intro e he
  by_cases hid : (e.id == t.id) = true
  · have het : e = t :=
      List.inj_on_of_nodup_map hnd he ht (by simpa using hid)
    subst het
    simp [Function.comp, updFn, htag]
  · have hid' : (e.id == t.id) = false := by simpa using hid
    simp [Function.comp, updFn, hid']

/-- When nothing in `l` matches, the search finds a matching appended
record. -/
lemma find?_append_singleton {α : Type} (l : List α) (q : α → Bool) (y : α)
    (h : l.find? q = none) (hy : q y = true) :
    (l ++ [y]).find? q = some y := by
  rw [List.find?_append, h]
  simp [List.find?_cons, hy]

/-- Dispatch lemma: when the search finds a record, `createOrUpdateEvent`
is an in-place update of that record. -/
lemma createOrUpdateEvent_of_found (sourceEvent : SourceEvent)
    (pfx c n : String) (st : TargetStore) (t : TargetEvent)
    (h : st.events.find? (tagPred sourceEvent.id) = some t) :
    createOrUpdateEvent sourceEvent pfx c n st
      = updateEvent st t.id (buildTargetPayload sourceEvent pfx c n) := by
  unfold createOrUpdateEvent
  rw [listByTag_head?, h]

/-- Dispatch lemma: when the search finds nothing, `createOrUpdateEvent`
inserts a fresh record. -/
lemma createOrUpdateEvent_of_none (sourceEvent : SourceEvent)
    (pfx c n : String) (st : TargetStore)
    (h : st.events.find? (tagPred sourceEvent.id) = none) :
    createOrUpdateEvent sourceEvent pfx c n st
      = insertEvent st (buildTargetPayload sourceEvent pfx c n) := by
  unfold createOrUpdateEvent
  rw [listByTag_head?, h]

lemma deleteTargetEvent_of_found (sourceEvent : SourceEvent) (st : TargetStore)
    (t : TargetEvent) (h : st.events.find? (tagPred sourceEvent.id) = some t) :
    deleteTargetEvent sourceEvent st = removeEvent st t.id := by
  unfold deleteTargetEvent
  rw [listByTag_head?, h]

lemma deleteTargetEvent_of_none (sourceEvent : SourceEvent) (st : TargetStore)
    (h : st.events.find? (tagPred sourceEvent.id) = none) :
    deleteTargetEvent sourceEvent st = st := by
  unfold deleteTargetEvent
  rw [listByTag_head?, h]

lemma buildTargetPayload_tag (sourceEvent : SourceEvent) (pfx c n : String) :
    (buildTargetPayload sourceEvent pfx c n).sourceEventId = some sourceEvent.id :=
  rfl

lemma tagPred_updated (sourceEvent : SourceEvent) (pfx c n : String) (t : TargetEvent) :
    tagPred sourceEvent.id { t with payload := buildTargetPayload sourceEvent pfx c n } = true := by
  simp [tagPred, buildTargetPayload_tag]

/-! Section: Invariant preservation -/

lemma ids_insertEvent (st : TargetStore) (p : TargetEventPayload) :
    idsOf (insertEvent st p) = idsOf st ++ [st.nextId] := by
  simp [insertEvent, idsOf]

lemma tags_insertEvent (st : TargetStore) (p : TargetEventPayload) (tag : String)
    (hp : p.sourceEventId = some tag) :
    tagsOf (insertEvent st p) = tagsOf st ++ [tag] := by
  simp [insertEvent, tagsOf, List.filterMap_append, hp]

lemma inv_createOrUpdateEvent (sourceEvent : SourceEvent) (pfx c n : String)
    (st : TargetStore) (hWF : WellFormed st) (hTags : TagsNodup st) :
    WellFormed (createOrUpdateEvent sourceEvent pfx c n st)
      ∧ TagsNodup (createOrUpdateEvent sourceEvent pfx c n st) := by
  cases hfind : st.events.find? (tagPred sourceEvent.id) with
  | some t =>
      rw [createOrUpdateEvent_of_found sourceEvent pfx c n st t hfind]
      have ht : t ∈ st.events := List.mem_of_find?_eq_some hfind
      have htag : (buildTargetPayload sourceEvent pfx c n).sourceEventId
          = t.payload.sourceEventId := by
        have hb := List.find?_some hfind
        have heq : t.payload.sourceEventId = some sourceEvent.id := eq_of_beq hb
        rw [buildTargetPayload_tag, heq]
      refine ⟨⟨?_, ?_⟩, ?_⟩
      · show ((updateEvent st t.id _).events.map (fun e => e.id)).Nodup
        rw [updateEvent_events, ids_map_updFn]
        exact hWF.1
      · intro e he
        rw [updateEvent_events] at he
        obtain ⟨e0, he0, rfl⟩ := List.mem_map.mp he
        rw [updFn_id]
        exact hWF.2 e0 he0
      · show ((updateEvent st t.id _).events.filterMap (fun e => e.payload.sourceEventId)).Nodup
        rw [updateEvent_events, tags_map_updFn st.events t _ hWF.1 ht htag]
        exact hTags
  | none =>
      rw [createOrUpdateEvent_of_none sourceEvent pfx c n st hfind]
      have hnotmem : sourceEvent.id ∉ tagsOf st := by
        intro hmem
        obtain ⟨e, he, htag⟩ := List.mem_filterMap.mp hmem
        have := List.find?_eq_none.mp hfind e he
        apply this
        simp [tagPred, htag]
      refine ⟨⟨?_, ?_⟩, ?_⟩
      · show (idsOf (insertEvent st _)).Nodup
        rw [ids_insertEvent, List.nodup_append]
        refine ⟨hWF.1, List.nodup_singleton _, ?_⟩
        intro a ha
        obtain ⟨e, he, rfl⟩ := List.mem_map.mp ha
        have := hWF.2 e he
        simp
        omega
      · intro e he
        simp only [insertEvent, List.mem_append] at he
        cases he with
        | inl h0 =>
            have := hWF.2 e h0
            show e.id < st.nextId + 1
            omega
        | inr h0 =>
            have : e = { id := st.nextId, payload := buildTargetPayload sourceEvent pfx c n } := by
              simpa using h0
            subst this
            show st.nextId < st.nextId + 1
            omega
      · show (tagsOf (insertEvent st _)).Nodup
        rw [tags_insertEvent st _ sourceEvent.id (buildTargetPayload_tag sourceEvent pfx c n),
          List.nodup_append]
        refine ⟨hTags, List.nodup_singleton _, ?_⟩
        intro a ha
        simp only [List.mem_singleton]
        intro hcontra
        subst hcontra
        exact hnotmem ha

lemma inv_deleteTargetEvent (sourceEvent : SourceEvent) (st : TargetStore)
    (hWF : WellFormed st) (hTags : TagsNodup st) :
    WellFormed (deleteTargetEvent sourceEvent st)
      ∧ TagsNodup (deleteTargetEvent sourceEvent st) := by
  cases hfind : st.events.find? (tagPred sourceEvent.id) with
  | none =>
      rw [deleteTargetEvent_of_none sourceEvent st hfind]
      exact ⟨hWF, hTags⟩
  | some t =>
      rw [deleteTargetEvent_of_found sourceEvent st t hfind]
      have hsub : List.Sublist ((removeEvent st t.id).events) st.events :=
        List.filter_sublist _
      refine ⟨⟨?_, ?_⟩, ?_⟩
      · show ((removeEvent st t.id).events.map (fun e => e.id)).Nodup
        have hnd : (st.events.map (fun e => e.id)).Nodup := hWF.1
        exact hnd.sublist (hsub.map (fun e => e.id))
      · intro e he
        exact hWF.2 e (hsub.mem he)
      · show ((removeEvent st t.id).events.filterMap (fun e => e.payload.sourceEventId)).Nodup
        have hnd : (st.events.filterMap (fun e => e.payload.sourceEventId)).Nodup := hTags
        exact hnd.sublist (hsub.filterMap (fun e => e.payload.sourceEventId))

lemma inv_stepRecord (pfx c n : String) (tgt : TargetStore) (sourceEvent : SourceEvent)
    (h : WellFormed tgt ∧ TagsNodup tgt) :
    WellFormed (stepRecord pfx c n tgt sourceEvent)
      ∧ TagsNodup (stepRecord pfx c n tgt sourceEvent) := by
  unfold stepRecord
  by_cases hc : (sourceEvent.status == "cancelled") = true
  · rw [if_pos hc]
    exact inv_deleteTargetEvent sourceEvent tgt h.1 h.2
  · rw [if_neg hc]
    exact inv_createOrUpdateEvent sourceEvent pfx c n tgt h.1 h.2

lemma inv_processItems (pfx c n : String) (items : List SourceEvent) (tgt : TargetStore)
    (h : WellFormed tgt ∧ TagsNodup tgt) :
    WellFormed (processItems pfx c n tgt items)
      ∧ TagsNodup (processItems pfx c n tgt items) := by
  induction items generalizing tgt with
  | nil => exact h
  | cons ev rest ih =>
      show WellFormed (processItems pfx c n (stepRecord pfx c n tgt ev) rest) ∧ _
      exact ih _ (inv_stepRecord pfx c n tgt ev h)

lemma inv_runPages (pfx c n : String) (outcomes : List FetchOutcome) (tgt : TargetStore)
    (h : WellFormed tgt ∧ TagsNodup tgt) :
    WellFormed (runPages pfx c n outcomes tgt).1
      ∧ TagsNodup (runPages pfx c n outcomes tgt).1 := by
  induction outcomes generalizing tgt with
  | nil => simpa [runPages] using h
  | cons o rest ih =>
      cases o with
      | error msg => simpa [runPages] using h
      | ok page =>
          by_cases he : page.items.isEmpty
          · simpa [runPages, he] using h
          · by_cases hpt : jsTruthyStr page.nextPageToken
            · simpa [runPages, he, hpt] using
                ih _ (inv_processItems pfx c n page.items tgt h)
            · simpa [runPages, he, hpt] using
                inv_processItems pfx c n page.items tgt h

lemma runSourcePass_target (env : Env) (now : Int) (st : SyncState)
    (source : SourceConfig) (sourceCalendarName : String) :
    (runSourcePass env now st source sourceCalendarName).target
      = (passResult env now st source sourceCalendarName).1 := by
  unfold runSourcePass
  dsimp only
  split
  · split
    · split
      · rfl
      · rfl
    · rfl
  · split
    · rfl
    · rfl
  · rfl

lemma inv_runSourcePass (env : Env) (now : Int) (st : SyncState)
    (source : SourceConfig) (sourceCalendarName : String)
    (h : WellFormed st.target ∧ TagsNodup st.target) :
    WellFormed (runSourcePass env now st source sourceCalendarName).target
      ∧ TagsNodup (runSourcePass env now st source sourceCalendarName).target := by
  rw [runSourcePass_target]
  exact inv_runPages _ _ _ _ _ h

lemma inv_syncSources (env : Env) (now : Int) (sources : List SourceConfig)
    (st : SyncState) (h : WellFormed st.target ∧ TagsNodup st.target) :
    WellFormed (syncSources env now sources st).target
      ∧ TagsNodup (syncSources env now sources st).target := by
  induction sources generalizing st with
  | nil => simpa [syncSources] using h
  | cons source rest ih =>
      cases hname : env.calendarName source.id with
      | none => simpa [syncSources, hname] using h
      | some sourceCalendarName =>
          have := inv_runSourcePass env now st source sourceCalendarName h
          simpa [syncSources, hname] using ih _ this

lemma inv_mainSyncFunction (env : Env) (now : Int) (sources : List SourceConfig)
    (st : SyncState) (h : WellFormed st.target ∧ TagsNodup st.target) :
    WellFormed (mainSyncFunction env now sources st).target
      ∧ TagsNodup (mainSyncFunction env now sources st).target := by
  unfold mainSyncFunction
  by_cases htgt : (env.calendarName GLOBAL_CONFIG.targetCalendarId).isSome
  · rw [if_pos htgt]
    exact inv_syncSources env now sources st h
  · rw [if_neg htgt]
    exact h

/-! Section: Trace lemmas -/

lemma targetStore_ext (a b : TargetStore) (h1 : a.events = b.events)
    (h2 : a.nextId = b.nextId) : a = b := by
  cases a
  cases b
  cases h1
  cases h2
  rfl

lemma runSourcePass_trace (env : Env) (now : Int) (st : SyncState)
    (source : SourceConfig) (sourceCalendarName : String) :
    (runSourcePass env now st source sourceCalendarName).trace
      = st.trace ++ [TraceEntry.sourceStarted source.id] := by
  unfold runSourcePass
  dsimp only
  split
  · split
    · split
      · rfl
      · rfl
    · rfl
  · split
    · rfl
    · rfl
  · rfl

lemma syncSources_trace_mono (env : Env) (now : Int) (sources : List SourceConfig)
    (st : SyncState) (x : TraceEntry) (hx : x ∈ st.trace) :
    x ∈ (syncSources env now sources st).trace := by
  induction sources generalizing st with
  | nil => simpa [syncSources] using hx
  | cons source rest ih =>
      cases hname : env.calendarName source.id with
      | none => simpa [syncSources, hname] using hx
      | some nm =>
          have hx1 : x ∈ (runSourcePass env now st source nm).trace := by
            rw [runSourcePass_trace]
            exact List.mem_append_left _ hx
          simpa [syncSources, hname] using ih _ hx1

/-! Section: Upsert idempotence -/

lemma updateEvent_updateEvent (st : TargetStore) (i : Nat) (p : TargetEventPayload) :
    updateEvent (updateEvent st i p) i p = updateEvent st i p := by
  apply targetStore_ext
  · show ((updateEvent st i p).events.map (updFn i p)) = (updateEvent st i p).events
    rw [updateEvent_events, List.map_map]
    apply List.map_congr_left
    intro e _
    exact updFn_updFn i p e
  · rfl

lemma createOrUpdateEvent_idem (sourceEvent : SourceEvent) (pfx c n : String)
    (st : TargetStore) (hWF : WellFormed st) :
    createOrUpdateEvent sourceEvent pfx c n (createOrUpdateEvent sourceEvent pfx c n st)
      = createOrUpdateEvent sourceEvent pfx c n st := by
  cases hfind : st.events.find? (tagPred sourceEvent.id) with
  | some t =>
      rw [createOrUpdateEvent_of_found sourceEvent pfx c n st t hfind]
      have hq : tagPred sourceEvent.id
          { t with payload := buildTargetPayload sourceEvent pfx c n } = true :=
        tagPred_updated sourceEvent pfx c n t
      have hfind2 : (updateEvent st t.id (buildTargetPayload sourceEvent pfx c n)).events.find?
          (tagPred sourceEvent.id)
          = some { t with payload := buildTargetPayload sourceEvent pfx c n } := by
        rw [updateEvent_events]
        exact find?_map_updFn st.events _ t _ hWF.1 hfind hq
      rw [createOrUpdateEvent_of_found sourceEvent pfx c n _ _ hfind2]
      exact updateEvent_updateEvent st t.id _
  | none =>
      rw [createOrUpdateEvent_of_none sourceEvent pfx c n st hfind]
      have hq : tagPred sourceEvent.id
          { id := st.nextId, payload := buildTargetPayload sourceEvent pfx c n } = true := by
        simp [tagPred, buildTargetPayload_tag]
      have hfind2 : (insertEvent st (buildTargetPayload sourceEvent pfx c n)).events.find?
          (tagPred sourceEvent.id)
          = some { id := st.nextId, payload := buildTargetPayload sourceEvent pfx c n } :=
        find?_append_singleton st.events (tagPred sourceEvent.id)
          ({ id := st.nextId, payload := buildTargetPayload sourceEvent pfx c n } : TargetEvent)
          hfind hq
      rw [createOrUpdateEvent_of_found sourceEvent pfx c n _ _ hfind2]
      apply targetStore_ext
      · rw [updateEvent_events]
        show (st.events
              ++ [({ id := st.nextId, payload := buildTargetPayload sourceEvent pfx c n } :
                TargetEvent)]).map
            (updFn st.nextId (buildTargetPayload sourceEvent pfx c n))
            = st.events
              ++ [({ id := st.nextId, payload := buildTargetPayload sourceEvent pfx c n } :
                TargetEvent)]
        rw [List.map_append]
        congr 1
        · apply map_updFn_of_ne
          intro e he
          have := hWF.2 e he
          omega
        · simp [updFn]
      · rfl

/-! Section: Tag counting -/

lemma count_filterMap_tag (l : List TargetEvent) (tag : String) :
    (l.filter (fun e => e.payload.sourceEventId == some tag)).length
      = (l.filterMap (fun e => e.payload.sourceEventId)).count tag := by
  induction l with
  | nil => rfl
  | cons e l ih =>
      cases h : e.payload.sourceEventId with
      | none => simp [List.filter_cons, h, List.filterMap_cons, ih]
      | some s =>
          by_cases hs : s = tag
          · subst hs
            simp [List.filter_cons, h, List.filterMap_cons, List.count_cons, ih]
          · simp [List.filter_cons, h, List.filterMap_cons, List.count_cons, hs, ih]

lemma countTag_eq_count (st : TargetStore) (tag : String) :
    countTag st tag = (tagsOf st).count tag :=
  count_filterMap_tag st.events tag

lemma countTag_createOrUpdateEvent (sourceEvent : SourceEvent) (pfx c n : String)
    (st : TargetStore) (hWF : WellFormed st) (hTags : TagsNodup st) :
    countTag (createOrUpdateEvent sourceEvent pfx c n st) sourceEvent.id = 1 := by
  cases hfind : st.events.find? (tagPred sourceEvent.id) with
  | some t =>
      rw [createOrUpdateEvent_of_found sourceEvent pfx c n st t hfind]
      have ht : t ∈ st.events := List.mem_of_find?_eq_some hfind
      have htag : (buildTargetPayload sourceEvent pfx c n).sourceEventId
          = t.payload.sourceEventId := by
        have hb := List.find?_some hfind
        have heq : t.payload.sourceEventId = some sourceEvent.id := eq_of_beq hb
        rw [buildTargetPayload_tag, heq]
      rw [countTag_eq_count]
      have hpres : tagsOf (updateEvent st t.id (buildTargetPayload sourceEvent pfx c n))
          = tagsOf st := by
        show (updateEvent st t.id _).events.filterMap (fun e => e.payload.sourceEventId)
            = st.events.filterMap (fun e => e.payload.sourceEventId)
        rw [updateEvent_events]
        exact tags_map_updFn st.events t _ hWF.1 ht htag
      rw [hpres]
      have hmem : sourceEvent.id ∈ tagsOf st := by
        apply List.mem_filterMap.mpr
        refine ⟨t, ht, ?_⟩
        have hb := List.find?_some hfind
        exact eq_of_beq hb
      have h1 : 0 < (tagsOf st).count sourceEvent.id := List.count_pos_iff.mpr hmem
      have h2 : (tagsOf st).count sourceEvent.id ≤ 1 :=
        List.nodup_iff_count_le_one.mp hTags sourceEvent.id
      omega
  | none =>
      rw [createOrUpdateEvent_of_none sourceEvent pfx c n st hfind]
      have hnotmem : sourceEvent.id ∉ tagsOf st := by
        intro hmem
        obtain ⟨e, he, htag⟩ := List.mem_filterMap.mp hmem
        have := List.find?_eq_none.mp hfind e he
        apply this
        simp [tagPred, htag]
      rw [countTag_eq_count,
        tags_insertEvent st _ sourceEvent.id (buildTargetPayload_tag sourceEvent pfx c n),
        List.count_append]
      rw [List.count_eq_zero.mpr hnotmem]
      simp

/-! Section: Deletion characterization -/

lemma filter_ne_id_eq_erase (l : List TargetEvent) (t : TargetEvent)
    (hnd : (l.map (fun e => e.id)).Nodup) (ht : t ∈ l) :
    l.filter (fun e => e.id != t.id) = l.erase t := by
  induction l with
  | nil => cases ht
  | cons x xs ih =>
      rw [List.map_cons, List.nodup_cons] at hnd
      by_cases hxt : x = t
      · subst hxt
        rw [List.erase_cons_head]
        have hfx : (x.id != x.id) = false := by simp
        rw [List.filter_cons, hfx]
        simp only [Bool.false_eq_true, if_false]
        apply List.filter_eq_self.mpr
        intro a ha
        have hne : a.id ≠ x.id := by
          intro hc
          exact hnd.1 (hc ▸ List.mem_map_of_mem (fun e => e.id) ha)
        simp [hne]
      · have ht' : t ∈ xs := by
          cases List.mem_cons.mp ht with
          | inl h0 => exact absurd h0.symm hxt
          | inr h0 => exact h0
        have hxid : x.id ≠ t.id := by
          intro hc
          exact hnd.1 (hc ▸ List.mem_map_of_mem (fun e => e.id) ht')
        have hbeq : ¬ (x == t) = true := by
          simp [hxt]
        rw [List.erase_cons_tail hbeq, List.filter_cons]
        have : (x.id != t.id) = true := by simp [hxid]
        rw [this]
        simp only [if_true]
        rw [ih hnd.2 ht']

/-! Section: Cursor persistence lemmas -/

lemma runSourcePass_props_finished (env : Env) (now : Int) (st : SyncState)
    (source : SourceConfig) (name : String) (page : FetchResult)
    (hexit : (passResult env now st source name).2 = PassExit.finished page) :
    (runSourcePass env now st source name).props
      = match page.nextSyncToken with
        | some tok =>
            if tok ≠ "" then st.props.setProperty (tokenKeyFor source) tok else st.props
        | none => st.props := by
  unfold runSourcePass
  dsimp only
  rw [hexit]
  cases hn : page.nextSyncToken with
  | some tok =>
      by_cases h : tok = ""
      · simp [hn, h]
      · simp [hn, h]
  | none => simp [hn]

lemma runSourcePass_props_errored (env : Env) (now : Int) (st : SyncState)
    (source : SourceConfig) (name : String) (msg : String)
    (hexit : (passResult env now st source name).2 = PassExit.errored msg) :
    (runSourcePass env now st source name).props
      = if msgIsInvalidCursor msg then st.props.deleteProperty (tokenKeyFor source)
        else st.props := by
  unfold runSourcePass
  dsimp only
  rw [hexit]
  by_cases h : msgIsInvalidCursor msg
  · simp [h]
  · simp [h]

lemma runSourcePass_props_starved (env : Env) (now : Int) (st : SyncState)
    (source : SourceConfig) (name : String)
    (hexit : (passResult env now st source name).2 = PassExit.starved) :
    (runSourcePass env now st source name).props = st.props := by
  unfold runSourcePass
  dsimp only
  rw [hexit]

/-! Section: Reset lemmas -/

lemma getProperty_deleteProperty_none (p : Props) (k k' : String)
    (h : p.getProperty k = none) :
    (p.deleteProperty k').getProperty k = none := by
  by_cases hk : k = k'
  · subst hk
    exact getProperty_deleteProperty_self p k
  · rw [getProperty_deleteProperty_ne p k' k hk]
    exact h

lemma getProperty_none_resetAll (sources : List SourceConfig) (props : Props) (k : String)
    (h : props.getProperty k = none) :
    (resetAllSyncTokens sources props).getProperty k = none := by
  induction sources generalizing props with
  | nil => exact h
  | cons s rest ih =>
      show (resetAllSyncTokens rest
        (props.deleteProperty (GLOBAL_CONFIG.tokenPropertyHead ++ s.id))).getProperty k = none
      exact ih _ (getProperty_deleteProperty_none props k _ h)

lemma getProperty_resetAll_mem (sources : List SourceConfig) (props : Props)
    (source : SourceConfig) (hs : source ∈ sources) :
    (resetAllSyncTokens sources props).getProperty (tokenKeyFor source) = none := by
  induction sources generalizing props with
  | nil => cases hs
  | cons s rest ih =>
      show (resetAllSyncTokens rest
        (props.deleteProperty (GLOBAL_CONFIG.tokenPropertyHead ++ s.id))).getProperty
          (tokenKeyFor source) = none
      cases List.mem_cons.mp hs with
      | inl h0 =>
          subst h0
          apply getProperty_none_resetAll
          exact getProperty_deleteProperty_self props (tokenKeyFor source)
      | inr h0 => exact ih _ h0

lemma syncSources_processes_all (env : Env) (now : Int) (sources : List SourceConfig)
    (st : SyncState)
    (hnames : ∀ source ∈ sources, (env.calendarName source.id).isSome = true) :
    ∀ source ∈ sources,
      TraceEntry.sourceStarted source.id ∈ (syncSources env now sources st).trace := by
  induction sources generalizing st with
  | nil =>
      intro s hs
      cases hs
  | cons src rest ih =>
      intro s hs
      have hsrc : (env.calendarName src.id).isSome = true :=
        hnames src (List.mem_cons_self src rest)
      obtain ⟨nm, hnm⟩ := Option.isSome_iff_exists.mp hsrc
      have hrest : ∀ u ∈ rest, (env.calendarName u.id).isSome = true :=
        fun u hu => hnames u (List.mem_cons_of_mem src hu)
      simp only [syncSources, hnm]
      cases List.mem_cons.mp hs with
      | inl h0 =>
          subst h0
          apply syncSources_trace_mono
          rw [runSourcePass_trace]
          exact List.mem_append_right _ (List.mem_singleton_self _)
      | inr h0 => exact ih _ hrest s h0

lemma inv_runInvocations (sources : List SourceConfig) (invs : List (Env × Int))
    (st : SyncState) (h : WellFormed st.target ∧ TagsNodup st.target) :
    WellFormed (runInvocations sources invs st).target
      ∧ TagsNodup (runInvocations sources invs st).target := by
  induction invs generalizing st with
  | nil => exact h
  | cons inv rest ih =>
      show WellFormed (runInvocations sources rest
          (mainSyncFunction inv.1 inv.2 sources st)).target
        ∧ TagsNodup (runInvocations sources rest
          (mainSyncFunction inv.1 inv.2 sources st)).target
      exact ih _ (inv_mainSyncFunction inv.1 inv.2 sources st h)

/-- Bootstrap parameters when no cursor is stored. -/
lemma buildRequestParams_none (now : Int) :
    (buildRequestParams none now).syncToken = none
    ∧ (buildRequestParams none now).timeMin = some (now - 7 * 24 * 60 * 60 * 1000)
    ∧ (buildRequestParams none now).timeMax = some (now + 365 * 24 * 60 * 60 * 1000) := by
  refine ⟨rfl, ?_, ?_⟩ <;>
    simp [buildRequestParams, jsTruthyStr, GLOBAL_CONFIG]

/-! Section: The claims -/

/-- C1: for every correlationTag value, after any sequence of sync
passes executed sequentially (any environments, clocks and configured
sources), at most one TargetRecord in the target collection carries that
tag: `createOrUpdateEvent` first searches the target by the tag and updates
the found record in place rather than creating a second one, and only
creates when no match exists, so from any well-formed target store
satisfying the invariant every store reachable through `mainSyncFunction`
invocations still satisfies it. -/
theorem c1_unique_correlation_tag (sources : List SourceConfig)
    (invs : List (Env × Int)) (st : SyncState)
    (hWF : WellFormed st.target) (hTags : TagsNodup st.target) (tag : String) :
    countTag (runInvocations sources invs st).target tag ≤ 1 := by
  have h := inv_runInvocations sources invs st ⟨hWF, hTags⟩
  rw [countTag_eq_count]
  exact List.nodup_iff_count_le_one.mp h.2 tag

theorem c1_unique_correlation_tag_witness :
    countTag (runInvocations [srcB2] [(envOkW, 0)] sst0W).target "e1" ≤ 1 :=
  c1_unique_correlation_tag [srcB2] [(envOkW, 0)] sst0W (by decide) (by decide) "e1"

/-- C2 counterexample: the claim fails as stated.  When source a@x's
calendar does not resolve, the `.getName()` call on the null calendar
(`main.js` line 113) throws *outside* the per-source try block, so the whole
run aborts and sibling b@x is never processed — although b@x alone
processes fine in the same environment. -/
theorem c2_isolation_cex :
    TraceEntry.sourceStarted "b@x"
        ∉ (mainSyncFunction envAbortW 0 [srcA2, srcB2] sst0W).trace
    ∧ TraceEntry.sourceStarted "b@x"
        ∈ (mainSyncFunction envAbortW 0 [srcB2] sst0W).trace := by
  constructor
  · decide
  · decide

/-- C2 (amended): failures signaled while fetching or processing inside
the per-source try block are isolated — whenever the target calendar and
every configured source calendar resolve, every source collection is
processed (its pass is started) no matter which fetches throw; but an error
resolving a source calendar itself (null calendar, `main.js` line 113)
aborts the remaining sources. -/
theorem c2_fetch_failure_isolation (env : Env) (now : Int)
    (sources : List SourceConfig) (st : SyncState) (source : SourceConfig)
    (htgt : (env.calendarName GLOBAL_CONFIG.targetCalendarId).isSome = true)
    (hnames : ∀ s ∈ sources, (env.calendarName s.id).isSome = true)
    (hs : source ∈ sources) :
    TraceEntry.sourceStarted source.id
      ∈ (mainSyncFunction env now sources st).trace := by
  unfold mainSyncFunction
  rw [if_pos htgt]
  exact syncSources_processes_all env now sources st hnames source hs

theorem c2_fetch_failure_isolation_witness :
    TraceEntry.sourceStarted "b@x"
      ∈ (mainSyncFunction envIsolW 0 [srcA2, srcB2] sst0W).trace :=
  c2_fetch_failure_isolation envIsolW 0 [srcA2, srcB2] sst0W srcB2
    (by decide) (by decide) (by decide)

/-- C3 counterexample: the claim fails as stated.  A pass interrupted
mid-pagination by an exception (here the fetch throws before any terminal
page, and the state holds a previously persisted cursor) does not always
leave the persisted cursor unchanged: when the exception message carries the
invalid-cursor condition, the catch-clause deletes the cursor. -/
theorem c3_cursor_unchanged_cex :
    sstTokW.props.getProperty "syncToken_a@x" = some "tok0"
    ∧ (passResult env410W 0 sstTokW srcA2 "A").2
        = PassExit.errored "API call failed: 410 Gone"
    ∧ (mainSyncFunction env410W 0 [srcA2] sstTokW).props.getProperty "syncToken_a@x"
        = none := by
  refine ⟨by decide, by decide, by decide⟩

/-- C3 (amended): per source pass the cursor store is mutated at most
once, and only at the key of that source; a commit happens only when the
pagination loop exits normally, and only when its last page carries a
non-empty `nextSyncToken`; a pass interrupted by an exception (or that
never reaches the code after the loop) leaves the persisted cursor
unchanged — except when the exception is the distinguished invalid-cursor
condition, in which case the cursor is deleted instead (see C4). -/
theorem c3_cursor_commit_policy (env : Env) (now : Int) (st : SyncState)
    (source : SourceConfig) (name : String) :
    (∀ k, k ≠ tokenKeyFor source →
      (runSourcePass env now st source name).props.getProperty k
        = st.props.getProperty k)
    ∧ ((passResult env now st source name).2 = PassExit.starved →
        (runSourcePass env now st source name).props = st.props)
    ∧ (∀ msg, (passResult env now st source name).2 = PassExit.errored msg →
        msgIsInvalidCursor msg = false →
        (runSourcePass env now st source name).props = st.props)
    ∧ (∀ msg, (passResult env now st source name).2 = PassExit.errored msg →
        msgIsInvalidCursor msg = true →
        (runSourcePass env now st source name).props.getProperty (tokenKeyFor source)
          = none)
    ∧ (∀ page, (passResult env now st source name).2 = PassExit.finished page →
        jsTruthyStr page.nextSyncToken = false →
        (runSourcePass env now st source name).props = st.props)
    ∧ (∀ page tok, (passResult env now st source name).2 = PassExit.finished page →
        page.nextSyncToken = some tok → tok ≠ "" →
        (runSourcePass env now st source name).props.getProperty (tokenKeyFor source)
          = some tok) := by
  refine ⟨?_, ?_, ?_, ?_, ?_, ?_⟩
  · intro k hk
    cases hexit : (passResult env now st source name).2 with
    | finished page =>
        rw [runSourcePass_props_finished env now st source name page hexit]
        cases page.nextSyncToken with
        | some tok =>
            by_cases ht : tok = ""
            · simp [ht]
            · simp only [ht, ne_eq, not_false_iff, if_true]
              exact getProperty_setProperty_ne st.props (tokenKeyFor source) k tok hk
        | none => rfl
    | errored msg =>
        rw [runSourcePass_props_errored env now st source name msg hexit]
        by_cases hmsg : msgIsInvalidCursor msg
        · rw [if_pos hmsg]
          exact getProperty_deleteProperty_ne st.props (tokenKeyFor source) k hk
        · rw [if_neg hmsg]
    | starved =>
        rw [runSourcePass_props_starved env now st source name hexit]
  · intro hexit
    exact runSourcePass_props_starved env now st source name hexit
  · intro msg hexit hmsg
    rw [runSourcePass_props_errored env now st source name msg hexit]
    simp [hmsg]
  · intro msg hexit hmsg
    rw [runSourcePass_props_errored env now st source name msg hexit]
    rw [if_pos hmsg]
    exact getProperty_deleteProperty_self st.props (tokenKeyFor source)
  · intro page hexit htok
    rw [runSourcePass_props_finished env now st source name page hexit]
    cases hn : page.nextSyncToken with
    | some tok =>
        rw [hn] at htok
        have : tok = "" := by
          simpa [jsTruthyStr] using htok
        simp [this]
    | none => rfl
  · intro page tok hexit hn htok
    rw [runSourcePass_props_finished env now st source name page hexit, hn]
    simp only [htok, ne_eq, not_false_iff, if_true]
    exact getProperty_setProperty_self st.props (tokenKeyFor source) tok

theorem c3_cursor_commit_policy_witness :
    (runSourcePass envOkW 0 sst0W srcB2 "B").props.getProperty (tokenKeyFor srcB2)
      = some "tokB" :=
  (c3_cursor_commit_policy envOkW 0 sst0W srcB2 "B").2.2.2.2.2 pageB "tokB"
    (by decide) (by decide) (by decide)

/-- C4: if a fetch during a source's pass raises the distinguished
invalid-cursor condition (message containing the invalid-token text or
"410"), the persisted cursor for exactly that source is deleted (other keys
are untouched), and the next invocation builds bootstrap-mode request
parameters for that source: no cursor, and exactly the configured time
window around the clock value. -/
theorem c4_cursor_expiry_recovery (env : Env) (now : Int) (st : SyncState)
    (source : SourceConfig) (name : String) (msg : String)
    (hexit : (passResult env now st source name).2 = PassExit.errored msg)
    (hmsg : msgIsInvalidCursor msg = true) :
    (runSourcePass env now st source name).props.getProperty (tokenKeyFor source) = none
    ∧ (∀ k, k ≠ tokenKeyFor source →
        (runSourcePass env now st source name).props.getProperty k
          = st.props.getProperty k)
    ∧ (∀ now2,
        (buildRequestParams
          ((runSourcePass env now st source name).props.getProperty (tokenKeyFor source))
          now2).syncToken = none
        ∧ (buildRequestParams
            ((runSourcePass env now st source name).props.getProperty (tokenKeyFor source))
            now2).timeMin = some (now2 - 7 * 24 * 60 * 60 * 1000)
        ∧ (buildRequestParams
            ((runSourcePass env now st source name).props.getProperty (tokenKeyFor source))
            now2).timeMax = some (now2 + 365 * 24 * 60 * 60 * 1000)) := by
  have hdel : (runSourcePass env now st source name).props.getProperty (tokenKeyFor source)
      = none := by
    rw [runSourcePass_props_errored env now st source name msg hexit, if_pos hmsg]
    exact getProperty_deleteProperty_self st.props (tokenKeyFor source)
  refine ⟨hdel, ?_, ?_⟩
  · intro k hk
    rw [runSourcePass_props_errored env now st source name msg hexit, if_pos hmsg]
    exact getProperty_deleteProperty_ne st.props (tokenKeyFor source) k hk
  · intro now2
    rw [hdel]
    exact buildRequestParams_none now2

theorem c4_cursor_expiry_recovery_witness :
    (runSourcePass env410W 0 sstTokW srcA2 "A").props.getProperty (tokenKeyFor srcA2)
        = none
    ∧ (buildRequestParams
        ((runSourcePass env410W 0 sstTokW srcA2 "A").props.getProperty (tokenKeyFor srcA2))
        0).syncToken = none :=
  let h := c4_cursor_expiry_recovery env410W 0 sstTokW srcA2 "A"
    "API call failed: 410 Gone" (by decide) (by decide)
  ⟨h.1, (h.2.2 0).1⟩

/-- C5: upsert is idempotent.  For every source change record whose
status is not cancelled and every source configuration, running
`createOrUpdateEvent` twice on an unchanged record against a well-formed
target store equals running it once, and the store after one run holds
exactly one record carrying the record's correlation tag. -/
theorem c5_upsert_idempotent (sourceEvent : SourceEvent) (source : SourceConfig)
    (name : String) (st : TargetStore)
    (hWF : WellFormed st) (hTags : TagsNodup st)
    (hstatus : sourceEvent.status ≠ "cancelled") :
    createOrUpdateEvent sourceEvent source.pfx source.colorId name
        (createOrUpdateEvent sourceEvent source.pfx source.colorId name st)
      = createOrUpdateEvent sourceEvent source.pfx source.colorId name st
    ∧ countTag (createOrUpdateEvent sourceEvent source.pfx source.colorId name st)
        sourceEvent.id = 1 :=
  ⟨createOrUpdateEvent_idem sourceEvent source.pfx source.colorId name st hWF,
   countTag_createOrUpdateEvent sourceEvent source.pfx source.colorId name st hWF hTags⟩

theorem c5_upsert_idempotent_witness :
    createOrUpdateEvent evW srcB2.pfx srcB2.colorId "B"
        (createOrUpdateEvent evW srcB2.pfx srcB2.colorId "B" stW)
      = createOrUpdateEvent evW srcB2.pfx srcB2.colorId "B" stW
    ∧ countTag (createOrUpdateEvent evW srcB2.pfx srcB2.colorId "B" stW) "e1" = 1 :=
  c5_upsert_idempotent evW srcB2 "B" stW (by decide) (by decide) (by decide)

/-- C6 counterexample: the claim's tie-break clause fails as stated.
The tie-break compares the bracketed text with the source calendar's
*display name*, so "leaves the title unmodified exactly when the bracketed
text equals the display name" does not hold extensionally: for a source
whose marker is "[Work]" but whose display name is "X", the title
"[Work] Lunch" is stripped and re-marked back to the identical text — it is
left unmodified although "Work" differs from the display name "X". -/
theorem c6_tie_break_cex :
    transformTitle "[Work] Lunch" "[Work]" "X" = "[Work] Lunch"
    ∧ "Work" ≠ "X" := by
  constructor
  · decide
  · decide

/-- C6 (amended): transforming a record titled "Lunch" for a source with
marker "[Work]" yields "[Work] Lunch" (for any display name); re-applying
the transformation to that result for the same source yields the identical
title, with no marker accumulation; a title already carrying the bracketed
marker of a different source, transformed for a source with marker "[Univ]"
whose display name is not "Work", yields "[Univ] Lunch" and not
"[Univ] [Work] Lunch"; and whenever the bracketed text equals the owning
source's display name the title is left unmodified (the converse can fail
when re-attaching the marker happens to reproduce the input). -/
theorem c6_title_round_trip :
    (∀ name, transformTitle "Lunch" "[Work]" name = "[Work] Lunch")
    ∧ (∀ name, transformTitle (transformTitle "Lunch" "[Work]" name) "[Work]" name
        = transformTitle "Lunch" "[Work]" name)
    ∧ (∀ name, name ≠ "Work" →
        transformTitle "[Work] Lunch" "[Univ]" name = "[Univ] Lunch")
    ∧ (∀ title pfx2 name content, bracketMatch title = some content →
        content = name → transformTitle title pfx2 name = title) := by
  have hbm : bracketMatch "[Work] Lunch" = some "Work" := by decide
  have h1 : ∀ name, transformTitle "Lunch" "[Work]" name = "[Work] Lunch" := by
    intro name
    have hno : bracketMatch "Lunch" = none := by decide
    unfold transformTitle
    simp only [hno]
    decide
  have h2 : ∀ name, transformTitle "[Work] Lunch" "[Work]" name = "[Work] Lunch" := by
    intro name
    unfold transformTitle
    simp only [hbm]
    by_cases h : "Work" = name
    · rw [if_pos h]
    · rw [if_neg h]
      decide
  refine ⟨h1, ?_, ?_, ?_⟩
  · intro name
    rw [h1 name, h2 name]
  · intro name hne
    unfold transformTitle
    simp only [hbm]
    rw [if_neg (fun h => hne h.symm)]
    decide
  · intro title pfx2 name content hb heq
    unfold transformTitle
    simp only [hb]
    rw [if_pos heq]

theorem c6_title_round_trip_witness :
    transformTitle "Lunch" "[Work]" "Work Calendar" = "[Work] Lunch"
    ∧ transformTitle "[Work] Lunch" "[Univ]" "Univ Calendar" = "[Univ] Lunch"
    ∧ transformTitle "[Work] Lunch" "[Work]" "Work" = "[Work] Lunch" :=
  ⟨c6_title_round_trip.1 "Work Calendar",
   c6_title_round_trip.2.2.1 "Univ Calendar" (by decide),
   c6_title_round_trip.2.2.2 "[Work] Lunch" "[Work]" "Work" "Work" (by decide) rfl⟩

/-- C7: for every cancelled source change record, if a target record
whose correlation tag equals the record's id exists (the search finds one),
exactly that record is removed — the store becomes the old store with that
one record erased, the id counter is untouched, and every other record
survives; if no such record exists, `deleteTargetEvent` leaves the store
unchanged (a no-op, not an error — the embedding is total). -/
theorem c7_deletion_correctness (sourceEvent : SourceEvent) (st : TargetStore)
    (hWF : WellFormed st) :
    (findByTag st sourceEvent.id = none → deleteTargetEvent sourceEvent st = st)
    ∧ (∀ t, findByTag st sourceEvent.id = some t →
        t.payload.sourceEventId = some sourceEvent.id
        ∧ (deleteTargetEvent sourceEvent st).events = st.events.erase t
        ∧ (deleteTargetEvent sourceEvent st).nextId = st.nextId
        ∧ ∀ u ∈ st.events, u ≠ t → u ∈ (deleteTargetEvent sourceEvent st).events) := by
  constructor
  · intro h
    have hf : st.events.find? (tagPred sourceEvent.id) = none := by
      rw [← listByTag_head?]
      exact h
    exact deleteTargetEvent_of_none sourceEvent st hf
  · intro t h
    have hf : st.events.find? (tagPred sourceEvent.id) = some t := by
      rw [← listByTag_head?]
      exact h
    have hb : tagPred sourceEvent.id t = true := List.find?_some hf
    have htag : t.payload.sourceEventId = some sourceEvent.id := by
      have hb' : (t.payload.sourceEventId == some sourceEvent.id) = true := hb
      exact eq_of_beq hb'
    have ht : t ∈ st.events := List.mem_of_find?_eq_some hf
    have hnd : (st.events.map (fun e => e.id)).Nodup := hWF.1
    have hev : (deleteTargetEvent sourceEvent st).events = st.events.erase t := by
      rw [deleteTargetEvent_of_found sourceEvent st t hf]
      show st.events.filter (fun e => e.id != t.id) = st.events.erase t
      exact filter_ne_id_eq_erase st.events t hnd ht
    refine ⟨htag, hev, ?_, ?_⟩
    · rw [deleteTargetEvent_of_found sourceEvent st t hf]
      rfl
    · intro u hu hne
      rw [hev]
      exact (List.mem_erase_of_ne hne).mpr hu

theorem c7_deletion_correctness_witness :
    (deleteTargetEvent evCancel stW).events = stW.events.erase tgtW
    ∧ (deleteTargetEvent evCancel stW).nextId = stW.nextId :=
  let h := (c7_deletion_correctness evCancel stW (by decide)).2 tgtW (by decide)
  ⟨h.2.1, h.2.2.1⟩

/-- C8: fetch-mode parameter exclusivity and bootstrap windowing.  In
both modes the request asks for cancelled records, single expanded
instances and at most 250 results per page; with a persisted (non-empty)
cursor the request carries the cursor and no time window; with no cursor it
carries no cursor and exactly the window from 7 days (the configured
default) before the clock value to 365 days after it, in milliseconds.
`passResult` feeds exactly these parameters, built from the stored cursor
of the source, to the fetch. -/
theorem c8_fetch_mode_exclusivity (tok : Option String) (now : Int) :
    ((buildRequestParams tok now).showDeleted = true
      ∧ (buildRequestParams tok now).singleEvents = true
      ∧ (buildRequestParams tok now).maxResults = 250)
    ∧ (∀ t, tok = some t → t ≠ "" →
        (buildRequestParams tok now).syncToken = some t
        ∧ (buildRequestParams tok now).timeMin = none
        ∧ (buildRequestParams tok now).timeMax = none)
    ∧ (tok = none →
        (buildRequestParams tok now).syncToken = none
        ∧ (buildRequestParams tok now).timeMin = some (now - 7 * 24 * 60 * 60 * 1000)
        ∧ (buildRequestParams tok now).timeMax
            = some (now + 365 * 24 * 60 * 60 * 1000)) := by
  refine ⟨?_, ?_, ?_⟩
  · by_cases h : jsTruthyStr tok
    · simp [buildRequestParams, h]
    · simp [buildRequestParams, h]
  · intro t ht htne
    subst ht
    have h : jsTruthyStr (some t) = true := by
      simp [jsTruthyStr, htne]
    simp [buildRequestParams, h]
  · intro h
    subst h
    exact buildRequestParams_none now

theorem c8_fetch_mode_exclusivity_witness :
    (buildRequestParams (some "tok0") 5).syncToken = some "tok0"
    ∧ (buildRequestParams (some "tok0") 5).timeMin = none
    ∧ (buildRequestParams none 5).timeMin = some (5 - 7 * 24 * 60 * 60 * 1000)
    ∧ (buildRequestParams none 5).maxResults = 250 :=
  ⟨((c8_fetch_mode_exclusivity (some "tok0") 5).2.1 "tok0" rfl (by decide)).1,
   ((c8_fetch_mode_exclusivity (some "tok0") 5).2.1 "tok0" rfl (by decide)).2.1,
   ((c8_fetch_mode_exclusivity none 5).2.2 rfl).2.1,
   (c8_fetch_mode_exclusivity none 5).1.2.2⟩

/-- C9 counterexample: the claim fails as stated.  `resetAllSyncTokens`
deletes only the cursors of the *currently configured* sources: a cursor
persisted for a source that is no longer in the configuration list survives
the reset, so the command does not delete every persisted cursor in the
cursor store. -/
theorem c9_reset_cex :
    (resetAllSyncTokens SOURCE_CALENDARS
        { entries := [("syncToken_ghost@example.com", "tok")] }).getProperty
      "syncToken_ghost@example.com" = some "tok" := by
  decide

/-- C9 (amended): `resetAllSyncTokens` deletes the persisted cursor of
every *configured* source, so for every configured source the next
orchestrator invocation finds no cursor and builds bootstrap-mode request
parameters; cursors keyed to sources absent from the configuration are not
touched (see the counterexample). -/
theorem c9_reset_all_cursors (sources : List SourceConfig) (props : Props)
    (source : SourceConfig) (hs : source ∈ sources) :
    (resetAllSyncTokens sources props).getProperty (tokenKeyFor source) = none
    ∧ ∀ now,
        (buildRequestParams
          ((resetAllSyncTokens sources props).getProperty (tokenKeyFor source))
          now).syncToken = none
        ∧ (buildRequestParams
            ((resetAllSyncTokens sources props).getProperty (tokenKeyFor source))
            now).timeMin = some (now - 7 * 24 * 60 * 60 * 1000) := by
  have h1 := getProperty_resetAll_mem sources props source hs
  refine ⟨h1, ?_⟩
  intro now2
  rw [h1]
  exact ⟨(buildRequestParams_none now2).1, (buildRequestParams_none now2).2.1⟩

theorem c9_reset_all_cursors_witness :
    (resetAllSyncTokens SOURCE_CALENDARS
        { entries :=
          [("syncToken_your_university_calendar_id@group.calendar.google.com", "t0")] }).getProperty
      (tokenKeyFor
        { id := "your_university_calendar_id@group.calendar.google.com"
          pfx := "[Univ]", colorId := "9" }) = none :=
  (c9_reset_all_cursors SOURCE_CALENDARS
    { entries :=
      [("syncToken_your_university_calendar_id@group.calendar.google.com", "t0")] }
    { id := "your_university_calendar_id@group.calendar.google.com"
      pfx := "[Univ]", colorId := "9" }
    (by decide)).1

/-- C10: absent optional fields are defaulted in the target payload: a
missing title becomes "(No Title)" and is then marked with the source's
bracketed text, a missing description or location becomes the empty string,
and the correlation tag is always set to the source record's id. -/
theorem c10_default_fields (sourceEvent : SourceEvent) (pfx c n : String) :
    (sourceEvent.summary = none →
      (buildTargetPayload sourceEvent pfx c n).summary = pfx ++ " (No Title)")
    ∧ (sourceEvent.description = none →
        (buildTargetPayload sourceEvent pfx c n).description = "")
    ∧ (sourceEvent.location = none →
        (buildTargetPayload sourceEvent pfx c n).location = "")
    ∧ (buildTargetPayload sourceEvent pfx c n).sourceEventId
        = some sourceEvent.id := by
  refine ⟨?_, ?_, ?_, rfl⟩
  · intro h
    show transformTitle (jsOr sourceEvent.summary "(No Title)") pfx n
        = pfx ++ " (No Title)"
    rw [h]
    show transformTitle "(No Title)" pfx n = pfx ++ " (No Title)"
    have hbm : bracketMatch "(No Title)" = none := by decide
    unfold transformTitle
    rw [hbm, String.append_assoc]
    rfl
  · intro h
    show jsOr sourceEvent.description "" = ""
    rw [h]
    rfl
  · intro h
    show jsOr sourceEvent.location "" = ""
    rw [h]
    rfl

theorem c10_default_fields_witness :
    (buildTargetPayload evBare "[B]" "2" "B").summary = "[B] (No Title)"
    ∧ (buildTargetPayload evBare "[B]" "2" "B").description = ""
    ∧ (buildTargetPayload evBare "[B]" "2" "B").location = ""
    ∧ (buildTargetPayload evBare "[B]" "2" "B").sourceEventId = some "e2" :=
  let h := c10_default_fields evBare "[B]" "2" "B"
  ⟨h.1 rfl, h.2.1 rfl, h.2.2.1 rfl, h.2.2.2⟩

end CalendarSync
